import Mathlib

/-!
Verification of the options-chain subsystem of `robin_stocks_mcp`
(`robin_stocks_mcp/services/options.py`, `robin_stocks_mcp/models/options.py`).

The Python code is shallowly embedded:

* Python values that flow through the service (JSON-ish dicts, lists,
  strings, numbers, `None`) are the inductive `PyVal`; numbers are modelled
  as exact rationals `ℚ`.
* The upstream `robin_stocks` API (`rh.get_chains`, `rh.find_tradable_options`,
  `rh.get_option_market_data`, `rh.get_latest_price`,
  `rh.get_open_option_positions`, `rh.get_option_instrument_data_by_id`)
  and `client.ensure_session` are an explicit environment `Env` of fallible
  responses; each embedded service function also returns the list of upstream
  calls it performed (`CallEvent`), so call-count properties are statable.
* Python exceptions are the inductive `Exc`, with one constructor per
  `except` clause that the service distinguishes.
-/

namespace RobinStocksMcp

/-- A Python value as seen by the options service: `None`, strings,
numbers (modelled as exact rationals), lists and string-keyed dicts. -/
inductive PyVal where
  | none : PyVal
  | str (s : String) : PyVal
  | num (q : ℚ) : PyVal
  | list (xs : List PyVal) : PyVal
  | dict (d : List (String × PyVal)) : PyVal

/-- Python truthiness (`bool(v)`): `None`, `""`, `0`, `[]`, `{}` are falsy. -/
def pyTruthy : PyVal → Bool
  | PyVal.none => false
  | PyVal.str s => !s.isEmpty
  | PyVal.num q => decide (q ≠ 0)
  | PyVal.list xs => !xs.isEmpty
  | PyVal.dict d => !d.isEmpty

/-- `isinstance(v, dict)`. -/
def PyVal.isDict : PyVal → Bool
  | PyVal.dict _ => true
  | _ => false

/-- `isinstance(v, list)`. -/
def PyVal.isList : PyVal → Bool
  | PyVal.list _ => true
  | _ => false

/-- First binding for a key in a dict body (Python dicts hold at most one
binding per key; the embedding reads the first). -/
def lookupKey : List (String × PyVal) → String → Option PyVal
  | [], _ => Option.none
  | (k, v) :: rest, key => if k = key then some v else lookupKey rest key

/-- `v.get(key, dflt)`; the service only calls `.get` on dicts. -/
def pyGetD (v : PyVal) (key : String) (dflt : PyVal) : PyVal :=
  match v with
  | PyVal.dict d => (lookupKey d key).getD dflt
  | _ => dflt

/-- `d.setdefault(key, v)`: insert the binding only when the key is absent. -/
def pySetdefault (d : List (String × PyVal)) (key : String) (v : PyVal) :
    List (String × PyVal) :=
  if (lookupKey d key).isSome then d else d ++ [(key, v)]

/-- Python `a or b` over values: `a` when truthy, `b` otherwise. -/
def pyOr (a b : PyVal) : PyVal :=
  if pyTruthy a then a else b

/-- Value of a list of decimal digit characters. -/
def digitsToNat (cs : List Char) : Nat :=
  cs.foldl (fun a c => a * 10 + (c.toNat - 48)) 0

/-- Non-empty all-digit character list. -/
def isDigits (cs : List Char) : Bool :=
  !cs.isEmpty && cs.all (fun c => c.isDigit)

/-- Python `float(s)` on a string, restricted to optionally-signed decimal
literals with an optional fractional part (the only shapes the service's
upstream data carries); anything else fails like `float("not_a_number")`. -/
def parseDecimal (s : String) : Option ℚ :=
  let (neg, cs) :=
    match s.toList with
    | '-' :: r => (true, r)
    | '+' :: r => (false, r)
    | r => (false, r)
  let intPart := cs.takeWhile (fun c => c ≠ '.')
  let mk : ℚ → Option ℚ := fun q => some (if neg then -q else q)
  match cs.dropWhile (fun c => c ≠ '.') with
  | [] => if isDigits intPart then mk (digitsToNat intPart) else Option.none
  | '.' :: frac =>
      if frac.all (fun c => c ≠ '.')
          && (intPart.isEmpty || isDigits intPart)
          && (frac.isEmpty || isDigits frac)
          && !(intPart.isEmpty && frac.isEmpty) then
        mk ((digitsToNat intPart : ℚ)
          + (digitsToNat frac : ℚ) / ((10 : ℚ) ^ frac.length))
      else Option.none
  | _ :: _ => Option.none

/-- Python `float(v)`: numbers pass through, strings are parsed, every
other value raises (`TypeError`/`ValueError`, collapsed to `Except.error`). -/
def pyFloat : PyVal → Except Unit ℚ
  | PyVal.num q => Except.ok q
  | PyVal.str s =>
      match parseDecimal s with
      | some q => Except.ok q
      | Option.none => Except.error ()
  | _ => Except.error ()

/-- Python `v[0]`: head of a list, first character of a string; raises on
everything else (and on empty sequences). -/
def pyIndex0 : PyVal → Except Unit PyVal
  | PyVal.list (x :: _) => Except.ok x
  | PyVal.str s =>
      match s.toList with
      | c :: _ => Except.ok (PyVal.str (String.mk [c]))
      | [] => Except.error ()
  | _ => Except.error ()

/-- Python `str(v)`, restricted to the string case; the service only ever
applies it to values that are already strings, so compound renderings are
schematic. -/
def pyStr : PyVal → String
  | PyVal.str s => s
  | PyVal.num q => toString q
  | PyVal.none => "None"
  | PyVal.list _ => "<list>"
  | PyVal.dict _ => "<dict>"

/-- Exceptions the options service distinguishes: the three library error
kinds it re-raises unchanged, transport errors (`requests.RequestException`,
`ConnectionError`, `TimeoutError`), and any other `Exception`. The error
classes live in `robin_stocks_mcp/robinhood/errors.py`. -/
inductive Exc where
  | invalidArgument (msg : String) : Exc
  | authRequired (msg : String) : Exc
  | robinhoodAPI (msg : String) : Exc
  | requestException (msg : String) : Exc
  | otherException (msg : String) : Exc
  deriving DecidableEq

/-- Python `for x in v`: lists yield elements, dicts their keys, strings
their characters; other truthy values raise `TypeError`. -/
def pyIterate : PyVal → Except Exc (List PyVal)
  | PyVal.list xs => Except.ok xs
  | PyVal.dict d => Except.ok (d.map (fun kv => PyVal.str kv.1))
  | PyVal.str s => Except.ok (s.toList.map (fun c => PyVal.str (String.mk [c])))
  | _ => Except.error (Exc.otherException "TypeError: object is not iterable")

/-- One upstream interaction performed by the service. -/
inductive CallEvent where
  | ensureSession : CallEvent
  | getChains (symbol : String) : CallEvent
  | findTradableOptions (symbol exp : String) (optionType : Option String) : CallEvent
  | getOptionMarketData (symbol exp strike optType : String) : CallEvent
  | getLatestPrice (symbol : String) : CallEvent
  | getOpenOptionPositions : CallEvent
  | getOptionInstrumentDataById (id : String) : CallEvent
  deriving DecidableEq

/-- The upstream world the service talks to: `robin_stocks` responses and
the session guard, each either a value or a raised exception. -/
structure Env where
  ensure_session : Except Exc Unit
  get_chains : String → Except Exc PyVal
  find_tradable_options : String → String → Option String → Except Exc PyVal
  get_option_market_data : String → String → String → String → Except Exc PyVal
  get_latest_price : String → Except Exc PyVal
  get_open_option_positions : Except Exc PyVal
  get_option_instrument_data_by_id : String → Except Exc PyVal

/-- Modelled from the spec: `coerce_numeric` from
`robin_stocks_mcp/models/base.py` (the file is not in the source tree; only
its importers are). Spec §4.2/§7: "All numeric fields accept string-encoded
numbers from upstream and coerce losslessly to decimal; invalid numeric
strings coerce to null rather than raising." -/
def coerce_numeric : PyVal → Option ℚ
  | PyVal.num q => some q
  | PyVal.str s => parseDecimal s
  | _ => Option.none

/-- Modelled from the spec: `coerce_int` from
`robin_stocks_mcp/models/base.py` (not in the source tree); integer fields
accept string-encoded numbers, invalid values coerce to null. -/
def coerce_int : PyVal → Option Int
  | PyVal.num q => if q.den = 1 then some q.num else Option.none
  | PyVal.str s =>
      match parseDecimal s with
      | some q => if q.den = 1 then some q.num else Option.none
      | Option.none => Option.none
  | _ => Option.none

/-- The normalized contract record (`OptionContract` in
`robin_stocks_mcp/models/options.py`, lines 32-53): `symbol`, `expiration`,
`strike` and `type` are required fields (`str`, `str`, `float`,
`Literal["call","put"]`); the rest are Optional and run through
`coerce_numeric`/`coerce_int`. -/
structure OptionContract where
  symbol : String
  expiration : String
  strike : ℚ
  type : String
  bid : Option ℚ
  ask : Option ℚ
  mark_price : Option ℚ
  last_trade_price : Option ℚ
  open_interest : Option Int
  volume : Option Int
  implied_volatility : Option ℚ
  delta : Option ℚ
  gamma : Option ℚ
  theta : Option ℚ
  vega : Option ℚ
  rho : Option ℚ
  chance_of_profit_short : Option ℚ
  chance_of_profit_long : Option ℚ

/-- `"call" if item.get("type") == "call" else "put"` (options.py line 63). -/
def resolve_contract_type (v : PyVal) : String :=
  match v with
  | PyVal.str "call" => "call"
  | _ => "put"

/-- `OptionsService._build_contract` (options.py lines 51-78) combined with
the model's validation: each `.get` defaults to `None`, the contract type is
`"call"` exactly when the raw type field is the string `"call"` and `"put"`
otherwise, and `mark_price` is `adjusted_mark_price or mark_price` (Python
truthiness). Because `OptionContract.strike` is a required `float` whose
`mode="before"` validator `coerce_numeric` turns a missing or non-numeric
value into `None`, and `symbol`/`expiration` are required `str` fields,
pydantic raises a `ValidationError` (a plain `Exception`) when those do not
validate; the Optional numeric fields never raise. -/
def build_contract (item : PyVal) (symbol exp : String) : Except Exc OptionContract :=
  match pyGetD item "chain_symbol" (PyVal.str symbol),
      pyGetD item "expiration_date" (PyVal.str exp),
      coerce_numeric (pyGetD item "strike_price" PyVal.none) with
  | PyVal.str sym, PyVal.str expd, some strike =>
      Except.ok
        { symbol := sym
          expiration := expd
          strike := strike
          type := resolve_contract_type (pyGetD item "type" PyVal.none)
          bid := coerce_numeric (pyGetD item "bid_price" PyVal.none)
          ask := coerce_numeric (pyGetD item "ask_price" PyVal.none)
          mark_price := coerce_numeric
            (pyOr (pyGetD item "adjusted_mark_price" PyVal.none)
                  (pyGetD item "mark_price" PyVal.none))
          last_trade_price := coerce_numeric (pyGetD item "last_trade_price" PyVal.none)
          open_interest := coerce_int (pyGetD item "open_interest" PyVal.none)
          volume := coerce_int (pyGetD item "volume" PyVal.none)
          implied_volatility := coerce_numeric (pyGetD item "implied_volatility" PyVal.none)
          delta := coerce_numeric (pyGetD item "delta" PyVal.none)
          gamma := coerce_numeric (pyGetD item "gamma" PyVal.none)
          theta := coerce_numeric (pyGetD item "theta" PyVal.none)
          vega := coerce_numeric (pyGetD item "vega" PyVal.none)
          rho := coerce_numeric (pyGetD item "rho" PyVal.none)
          chance_of_profit_short :=
            coerce_numeric (pyGetD item "chance_of_profit_short" PyVal.none)
          chance_of_profit_long :=
            coerce_numeric (pyGetD item "chance_of_profit_long" PyVal.none) }
  | _, _, _ =>
      Except.error (Exc.otherException "ValidationError: invalid OptionContract fields")

/-- Normalize a list of raw records in order through `f` and
`_build_contract`; the first `ValidationError` aborts the whole run, as an
uncaught exception aborts the source loops. -/
def build_contracts (symbol exp : String) (f : PyVal → PyVal) :
    List PyVal → Except Exc (List OptionContract)
  | [] => Except.ok []
  | it :: rest =>
      match build_contract (f it) symbol exp with
      | Except.error e => Except.error e
      | Except.ok c =>
          match build_contracts symbol exp f rest with
          | Except.error e => Except.error e
          | Except.ok cs => Except.ok (c :: cs)

/-- `OptionsService._get_current_price` (options.py lines 41-49): best-effort
latest price; every exception (including index and parse failures) is caught
and yields `None`, as does a falsy price list or falsy first element. -/
def get_current_price (env : Env) (symbol : String) : Option ℚ × List CallEvent :=
  let ev := CallEvent.getLatestPrice symbol
  match env.get_latest_price symbol with
  | Except.error _ => (Option.none, [ev])
  | Except.ok prices =>
    if pyTruthy prices then
      match pyIndex0 prices with
      | Except.error _ => (Option.none, [ev])
      | Except.ok p0 =>
        if pyTruthy p0 then
          match pyFloat p0 with
          | Except.ok q => (some q, [ev])
          | Except.error _ => (Option.none, [ev])
        else (Option.none, [ev])
    else (Option.none, [ev])

/-- The near-the-money keep/skip decision of `_chain_listing` (options.py
lines 216-224): applied only when a truthy (nonzero) reference price is at
hand; `float(item.get("strike_price", 0))` out of `[0.80*p, 1.20*p]` skips
the entry, a parse failure is swallowed (`except (ValueError, TypeError):
pass`) and the entry is kept. -/
def chain_keep_band (current_price : Option ℚ) (item : PyVal) : Bool :=
  match current_price with
  | Option.none => true
  | some p =>
    if p = 0 then true
    else
      match pyFloat (pyGetD item "strike_price" (PyVal.num 0)) with
      | Except.ok s => !(decide (s < (0.80 : ℚ) * p) || decide (s > (1.20 : ℚ) * p))
      | Except.error _ => true

/-- The entry loop of `_chain_listing` (options.py lines 211-226): skip
falsy/non-dict entries and entries outside the band, normalize the rest in
order; a `ValidationError` from `_build_contract` propagates. -/
def chain_loop (symbol exp : String) (current_price : Option ℚ) :
    List PyVal → Except Exc (List OptionContract)
  | [] => Except.ok []
  | item :: rest =>
      if pyTruthy item && item.isDict && chain_keep_band current_price item then
        match build_contract item symbol exp with
        | Except.error e => Except.error e
        | Except.ok c =>
            match chain_loop symbol exp current_price rest with
            | Except.error e => Except.error e
            | Except.ok cs => Except.ok (c :: cs)
      else chain_loop symbol exp current_price rest

/-- `OptionsService._chain_listing` (options.py lines 187-228): one
`find_tradable_options` call, a best-effort price lookup, then a loop that
drops falsy/non-dict entries, applies the near-the-money band, and builds
the normalized contracts. -/
def chain_listing (env : Env) (symbol exp : String) (option_type : Option String) :
    Except Exc (List OptionContract) × List CallEvent :=
  let ev := CallEvent.findTradableOptions symbol exp option_type
  match env.find_tradable_options symbol exp option_type with
  | Except.error e => (Except.error e, [ev])
  | Except.ok od =>
    if pyTruthy od then
      let pr := get_current_price env symbol
      match pyIterate od with
      | Except.error e => (Except.error e, ev :: pr.2)
      | Except.ok items => (chain_loop symbol exp pr.1 items, ev :: pr.2)
    else (Except.ok [], [ev])

/-- `entry if isinstance(entry, list) else [entry]`, guarded by
`if not entry: continue` (options.py lines 170-174). -/
def targeted_items_of_entry (entry : PyVal) : List PyVal :=
  if pyTruthy entry then
    match entry with
    | PyVal.list xs => xs
    | v => [v]
  else []

/-- `item.setdefault("type", ot); item.setdefault("strike_price", sp);
item.setdefault("expiration_date", exp)` (options.py lines 180-182). -/
def setdefault3 (item : PyVal) (ot sp exp : String) : PyVal :=
  match item with
  | PyVal.dict d =>
      PyVal.dict
        (pySetdefault
          (pySetdefault (pySetdefault d "type" (PyVal.str ot)) "strike_price" (PyVal.str sp))
          "expiration_date" (PyVal.str exp))
  | v => v

/-- The raw pricing records a targeted-lookup iteration extracts from the
entry list of one market-data response (falsy entries and falsy/non-dict
items are skipped). -/
def targeted_raw_items (entries : List PyVal) : List PyVal :=
  (entries.map targeted_items_of_entry).flatten.filter
    (fun item => pyTruthy item && item.isDict)

/-- The `for ot in types_to_fetch` loop of `_targeted_lookup` (options.py
lines 159-183), accumulating contracts and upstream calls; a falsy
market-data response contributes nothing (`if not md: continue`), and a
`ValidationError` from normalizing one record aborts the loop after the
current call. -/
def targeted_loop (env : Env) (symbol exp sp : String) :
    List String → Except Exc (List OptionContract) × List CallEvent
  | [] => (Except.ok [], [])
  | ot :: rest =>
    let ev := CallEvent.getOptionMarketData symbol exp sp ot
    match env.get_option_market_data symbol exp sp ot with
    | Except.error e => (Except.error e, [ev])
    | Except.ok md =>
      if pyTruthy md then
        match pyIterate md with
        | Except.error e => (Except.error e, [ev])
        | Except.ok entries =>
          match build_contracts symbol exp (fun item => setdefault3 item ot sp exp)
              (targeted_raw_items entries) with
          | Except.error e => (Except.error e, [ev])
          | Except.ok here =>
            match targeted_loop env symbol exp sp rest with
            | (Except.error e, log) => (Except.error e, ev :: log)
            | (Except.ok cs, log) => (Except.ok (here ++ cs), ev :: log)
      else
        match targeted_loop env symbol exp sp rest with
        | (res, log) => (res, ev :: log)

/-- `OptionsService._targeted_lookup` (options.py lines 143-185): fetch the
explicit `option_type` when it is truthy, otherwise both `"call"` and
`"put"`, in that order. -/
def targeted_lookup (env : Env) (symbol exp sp : String) (option_type : Option String) :
    Except Exc (List OptionContract) × List CallEvent :=
  let types_to_fetch : List String :=
    match option_type with
    | some ot => if ot.isEmpty then ["call", "put"] else [ot]
    | Option.none => ["call", "put"]
  targeted_loop env symbol exp sp types_to_fetch

/-- Python truthiness of `Optional[str]`: `None` and `""` are falsy. -/
def optStrFalsy : Option String → Bool
  | Option.none => true
  | some s => s.isEmpty

/-- Mode selection of `get_options_chain` (options.py lines 115-122):
targeted lookup when `strike_price` is truthy, chain listing otherwise. -/
def options_chain_dispatch (env : Env) (symbol exp : String)
    (option_type strike_price : Option String) :
    Except Exc (List OptionContract) × List CallEvent :=
  match strike_price with
  | some sp =>
      if sp.isEmpty then chain_listing env symbol exp option_type
      else targeted_lookup env symbol exp sp option_type
  | Option.none => chain_listing env symbol exp option_type

/-- The body of `get_options_chain`'s `try` block (options.py lines
102-122): resolve the expiration when the argument is falsy — `get_chains`,
short-circuit to `[]` on falsy/non-dict chain data or a falsy expiration
set, otherwise `str(expirations[0])` — then dispatch on `strike_price`. -/
def options_chain_body (env : Env) (symbol : String)
    (expiration_date option_type strike_price : Option String) :
    Except Exc (List OptionContract) × List CallEvent :=
  if optStrFalsy expiration_date then
    let ev := CallEvent.getChains symbol
    match env.get_chains symbol with
    | Except.error e => (Except.error e, [ev])
    | Except.ok chains_data =>
      if pyTruthy chains_data && chains_data.isDict then
        let expirations := pyGetD chains_data "expiration_dates" (PyVal.list [])
        if pyTruthy expirations then
          match pyIndex0 expirations with
          | Except.error _ =>
              (Except.error (Exc.otherException "TypeError: object is not subscriptable"),
                [ev])
          | Except.ok x =>
            match options_chain_dispatch env symbol (pyStr x) option_type strike_price with
            | (res, log) => (res, ev :: log)
        else (Except.ok [], [ev])
      else (Except.ok [], [ev])
  else
    options_chain_dispatch env symbol ((expiration_date.getD "")) option_type strike_price

/-- The `except` clauses of `get_options_chain` (options.py lines 124-137):
the three library error kinds re-raise unchanged; transport errors and any
other exception are re-raised as `RobinhoodAPIError` carrying the original
message. -/
def wrap_options_exc : Exc → Exc
  | Exc.invalidArgument m => Exc.invalidArgument m
  | Exc.authRequired m => Exc.authRequired m
  | Exc.robinhoodAPI m => Exc.robinhoodAPI m
  | Exc.requestException m => Exc.robinhoodAPI ("Failed to fetch options chain: " ++ m)
  | Exc.otherException m => Exc.robinhoodAPI ("Failed to fetch options chain: " ++ m)

/-- `OptionsService.get_options_chain` (options.py lines 80-137): empty
symbol raises `InvalidArgumentError` before anything else, then
`ensure_session` (outside the `try`), then the guarded body. -/
def get_options_chain (env : Env) (symbol : String)
    (expiration_date option_type strike_price : Option String) :
    Except Exc (List OptionContract) × List CallEvent :=
  if symbol.isEmpty then
    (Except.error (Exc.invalidArgument "Symbol is required"), [])
  else
    match env.ensure_session with
    | Except.error e => (Except.error e, [CallEvent.ensureSession])
    | Except.ok _ =>
      match options_chain_body env symbol expiration_date option_type strike_price with
      | (Except.ok cs, log) => (Except.ok cs, CallEvent.ensureSession :: log)
      | (Except.error e, log) =>
          (Except.error (wrap_options_exc e), CallEvent.ensureSession :: log)

/-- The normalized position record (`OptionPosition` in
`robin_stocks_mcp/models/options.py`): `strike_price`, `quantity` and
`average_price` are run through `coerce_numeric`, the rest carry the raw
value. -/
structure OptionPosition where
  symbol : PyVal
  expiration_date : PyVal
  strike_price : Option ℚ
  option_type : PyVal
  direction : PyVal
  quantity : Option ℚ
  average_price : Option ℚ
  created_at : PyVal
  updated_at : PyVal

/-- `option_url.rstrip("/").split("/")[-1]` (options.py line 260): strip
trailing slashes, then take what follows the last remaining slash. -/
def option_id_of_url (u : String) : String :=
  String.mk ((((u.toList).reverse.dropWhile (fun c => c = '/')).takeWhile
    (fun c => c ≠ '/')).reverse)

/-- The loop body of `get_option_positions` (options.py lines 246-285) for
one truthy dict holding entry: resolve the instrument behind the `option`
URL for strike/expiration/type (and the symbol when the holding lacks one);
any exception in that resolution — including a non-string URL — is caught
and leaves those fields `None`. -/
def build_position (env : Env) (item : PyVal) : OptionPosition :=
  let option_url := pyGetD item "option" PyVal.none
  let symbol0 := pyGetD item "chain_symbol" PyVal.none
  let resolved : PyVal × PyVal × PyVal × PyVal :=
    if pyTruthy option_url then
      match option_url with
      | PyVal.str u =>
        match env.get_option_instrument_data_by_id (option_id_of_url u) with
        | Except.error _ => (symbol0, PyVal.none, PyVal.none, PyVal.none)
        | Except.ok instrument =>
          if pyTruthy instrument && instrument.isDict then
            ((if pyTruthy symbol0 then symbol0 else pyGetD instrument "chain_symbol" PyVal.none),
              pyGetD instrument "strike_price" PyVal.none,
              pyGetD instrument "expiration_date" PyVal.none,
              pyGetD instrument "type" PyVal.none)
          else (symbol0, PyVal.none, PyVal.none, PyVal.none)
      | _ => (symbol0, PyVal.none, PyVal.none, PyVal.none)
    else (symbol0, PyVal.none, PyVal.none, PyVal.none)
  { symbol := resolved.1
    expiration_date := resolved.2.2.1
    strike_price := coerce_numeric resolved.2.1
    option_type := resolved.2.2.2
    direction := pyGetD item "type" PyVal.none
    quantity := coerce_numeric (pyGetD item "quantity" PyVal.none)
    average_price := coerce_numeric (pyGetD item "average_price" PyVal.none)
    created_at := pyGetD item "created_at" PyVal.none
    updated_at := pyGetD item "updated_at" PyVal.none }

/-- `positions_data == [None]` (options.py line 242). -/
def isSingletonNone : PyVal → Bool
  | PyVal.list [PyVal.none] => true
  | _ => false

/-- The `except` clauses of `get_option_positions` (options.py lines
288-293), mirroring `get_options_chain`'s policy with its own message. -/
def wrap_positions_exc : Exc → Exc
  | Exc.invalidArgument m => Exc.invalidArgument m
  | Exc.authRequired m => Exc.authRequired m
  | Exc.robinhoodAPI m => Exc.robinhoodAPI m
  | Exc.requestException m => Exc.robinhoodAPI ("Failed to fetch option positions: " ++ m)
  | Exc.otherException m => Exc.robinhoodAPI ("Failed to fetch option positions: " ++ m)

/-- `OptionsService.get_option_positions` (options.py lines 230-293):
`ensure_session`, then the holdings listing; falsy data or `[None]` yields
`[]`; falsy/non-dict entries are skipped, the rest are enriched by
`build_position`. -/
def get_option_positions (env : Env) : Except Exc (List OptionPosition) :=
  match env.ensure_session with
  | Except.error e => Except.error e
  | Except.ok _ =>
    match env.get_open_option_positions with
    | Except.error e => Except.error (wrap_positions_exc e)
    | Except.ok pd =>
      if pyTruthy pd && !isSingletonNone pd then
        match pyIterate pd with
        | Except.error e => Except.error (wrap_positions_exc e)
        | Except.ok items =>
          Except.ok
            ((items.filter (fun it => pyTruthy it && it.isDict)).map (build_position env))
      else Except.ok []

/-- Is this event the chain-metadata query `rh.get_chains`? -/
def CallEvent.isGetChains : CallEvent → Bool
  | CallEvent.getChains _ => true
  | _ => false

/-- Is this event a market-data query `rh.get_option_market_data`? -/
def CallEvent.isMarketData : CallEvent → Bool
  | CallEvent.getOptionMarketData _ _ _ _ => true
  | _ => false

/-- The expiration date an upstream data query was keyed by, when the event
carries one. -/
def CallEvent.expUsed : CallEvent → Option String
  | CallEvent.findTradableOptions _ e _ => some e
  | CallEvent.getOptionMarketData _ e _ _ => some e
  | _ => Option.none

/-- The pricing records one market-data response contributes in
`_targeted_lookup` (falsy responses contribute nothing; falsy entries and
falsy/non-dict items are skipped). -/
def md_records (v : PyVal) : List PyVal :=
  if pyTruthy v then
    match pyIterate v with
    | Except.ok es => targeted_raw_items es
    | Except.error _ => []
  else []

/-- A pricing record either omits the `type` field (so `setdefault` injects
the queried type) or already echoes the queried type. -/
def type_echo_ok (ot : String) : PyVal → Prop
  | PyVal.dict d =>
      lookupKey d "type" = Option.none ∨ lookupKey d "type" = some (PyVal.str ot)
  | _ => True

/-- The in-order normalization of the records one market-data response
contributes in `_targeted_lookup`, after the `setdefault` injections. -/
def md_build (v : PyVal) (symbol exp sp ot : String) : Except Exc (List OptionContract) :=
  build_contracts symbol exp (fun item => setdefault3 item ot sp exp) (md_records v)

/-! Concrete upstream worlds used by the witnesses and counterexamples. -/

/-- Instrument entry at strike 80. -/
def itemS80 : PyVal :=
  PyVal.dict [("chain_symbol", PyVal.str "AAPL"), ("strike_price", PyVal.str "80"),
    ("type", PyVal.str "call")]

/-- Instrument entry at strike 79.99. -/
def itemS7999 : PyVal :=
  PyVal.dict [("chain_symbol", PyVal.str "AAPL"), ("strike_price", PyVal.str "79.99"),
    ("type", PyVal.str "call")]

/-- Instrument entry at strike 120. -/
def itemS120 : PyVal :=
  PyVal.dict [("chain_symbol", PyVal.str "AAPL"), ("strike_price", PyVal.str "120"),
    ("type", PyVal.str "put")]

/-- Instrument entry at strike 120.01. -/
def itemS12001 : PyVal :=
  PyVal.dict [("chain_symbol", PyVal.str "AAPL"), ("strike_price", PyVal.str "120.01"),
    ("type", PyVal.str "put")]

/-- The normalization of `itemS80` under symbol "AAPL" and expiration
"2026-03-20". -/
def contractS80 : OptionContract :=
  { symbol := "AAPL", expiration := "2026-03-20", strike := 80, type := "call"
    bid := Option.none, ask := Option.none, mark_price := Option.none
    last_trade_price := Option.none, open_interest := Option.none
    volume := Option.none, implied_volatility := Option.none
    delta := Option.none, gamma := Option.none, theta := Option.none
    vega := Option.none, rho := Option.none
    chance_of_profit_short := Option.none, chance_of_profit_long := Option.none }

/-- The normalization of `itemS120` under symbol "AAPL" and expiration
"2026-03-20". -/
def contractS120 : OptionContract :=
  { contractS80 with strike := 120, type := "put" }

/-- The normalization of the strike-500 entry of `envPriceFail` under
symbol "AAPL" and expiration "2026-03-20". -/
def contractS500 : OptionContract :=
  { contractS80 with strike := 500, type := "call" }

/-- A benign baseline world: session ok, no chain data, empty listings. -/
def baseEnv : Env :=
  { ensure_session := Except.ok ()
    get_chains := fun _ => Except.ok PyVal.none
    find_tradable_options := fun _ _ _ => Except.ok (PyVal.list [])
    get_option_market_data := fun _ _ _ _ => Except.ok PyVal.none
    get_latest_price := fun _ => Except.ok (PyVal.list [PyVal.str "100.00"])
    get_open_option_positions := Except.ok PyVal.none
    get_option_instrument_data_by_id := fun _ => Except.error (Exc.otherException "boom") }

/-- World for the near-the-money example: reference price 100, strikes
80, 79.99, 120, 120.01. -/
def envBand : Env :=
  { baseEnv with
    find_tradable_options := fun _ _ _ =>
      Except.ok (PyVal.list [itemS80, itemS7999, itemS120, itemS12001]) }

/-- A market-data response holding one well-formed pricing record that
echoes type `"put"`. -/
def mdPutEcho : PyVal :=
  PyVal.list [PyVal.list [PyVal.dict [("type", PyVal.str "put"),
    ("bid_price", PyVal.str "5.50")]]]

/-- World where both targeted market-data queries answer with the single
`"put"`-typed record `mdPutEcho`. -/
def envEcho : Env :=
  { baseEnv with get_option_market_data := fun _ _ _ _ => Except.ok mdPutEcho }

/-- A market-data response holding one pricing record without a type
field. -/
def mdPlain : PyVal :=
  PyVal.list [PyVal.list [PyVal.dict [("bid_price", PyVal.str "5.50"),
    ("ask_price", PyVal.str "5.75")]]]

/-- World where both targeted market-data queries answer `mdPlain`. -/
def envPlain : Env :=
  { baseEnv with get_option_market_data := fun _ _ _ _ => Except.ok mdPlain }

/-- World whose latest-price lookup raises; the listing still has entries,
including one far out of the money. -/
def envPriceFail : Env :=
  { baseEnv with
    get_latest_price := fun _ => Except.error (Exc.requestException "timeout")
    find_tradable_options := fun _ _ _ =>
      Except.ok (PyVal.list [itemS80, PyVal.none,
        PyVal.dict [("strike_price", PyVal.str "500"), ("type", PyVal.str "call")]]) }

/-- World whose listing call raises a generic exception. -/
def envListingBoom : Env :=
  { baseEnv with find_tradable_options := fun _ _ _ =>
      Except.error (Exc.otherException "boom") }

/-- Chain metadata carrying two expirations, earliest first. -/
def chainsTwo : PyVal :=
  PyVal.dict [("expiration_dates",
    PyVal.list [PyVal.str "2026-03-20", PyVal.str "2026-04-17"])]

/-- Chain metadata with an empty expiration set. -/
def chainsEmpty : PyVal :=
  PyVal.dict [("expiration_dates", PyVal.list [])]

/-- World with chain metadata carrying two expirations. -/
def envChains : Env :=
  { baseEnv with get_chains := fun _ => Except.ok chainsTwo }

/-- World whose chain metadata has an empty expiration set. -/
def envChainsEmpty : Env :=
  { baseEnv with get_chains := fun _ => Except.ok chainsEmpty }

/-- A raw record with a valid strike where both mark fields are present but
the adjusted one is falsy (numeric zero). -/
def itemMarkFalsy : PyVal :=
  PyVal.dict [("strike_price", PyVal.str "150.00"), ("type", PyVal.str "call"),
    ("adjusted_mark_price", PyVal.num 0), ("mark_price", PyVal.num 5)]

/-- A raw record with a valid strike where both mark fields are present and
truthy. -/
def itemMarkBoth : PyVal :=
  PyVal.dict [("strike_price", PyVal.str "150.00"), ("type", PyVal.str "call"),
    ("adjusted_mark_price", PyVal.str "5.625"), ("mark_price", PyVal.str "5.60")]

/-- One raw option holding, with an instrument URL and account-side
fields. -/
def holdingItem : PyVal :=
  PyVal.dict [("chain_symbol", PyVal.str "AAPL"),
    ("option", PyVal.str "https://api.robinhood.com/options/instruments/abc-123/"),
    ("type", PyVal.str "long"), ("quantity", PyVal.str "2.0000"),
    ("average_price", PyVal.str "125.50"), ("created_at", PyVal.str "2026-01-02T00:00:00Z"),
    ("updated_at", PyVal.str "2026-01-03T00:00:00Z")]

/-- World holding one position whose instrument lookup raises. -/
def envPositions : Env :=
  { baseEnv with get_open_option_positions := Except.ok (PyVal.list [holdingItem]) }

/-! ## Shared lemmas

The core `Rat` arithmetic operations are `@[irreducible]`, which blocks
`decide`/`rfl` evaluation of the embedded functions on concrete inputs;
they are made semireducible for the proofs below (the kernel never
respected the marker anyway). -/

section EvalProofs

attribute [local semireducible] Rat.mul Rat.add Rat.inv Rat.ofScientific Rat.sub

theorem pyTruthy_list (xs : List PyVal) : pyTruthy (PyVal.list xs) = !xs.isEmpty := rfl

/-- `_chain_listing` on a successful listing response runs the entry loop
on the response, with the best-effort price. -/
theorem chain_listing_spec (env : Env) (s e : String) (ot : Option String)
    (items : List PyVal)
    (hfind : env.find_tradable_options s e ot = Except.ok (PyVal.list items)) :
    (chain_listing env s e ot).1 =
      chain_loop s e (get_current_price env s).1 items := by
  by_cases hne : items = []
  · subst hne
    simp [chain_listing, hfind, pyTruthy, chain_loop]
  · simp [chain_listing, hfind, pyTruthy, hne, pyIterate]

/-- The entry loop is the in-order normalization of exactly the kept
entries. -/
theorem chain_loop_eq_build (s e : String) (cp : Option ℚ) (items : List PyVal) :
    chain_loop s e cp items =
      build_contracts s e (fun it => it)
        (items.filter (fun it => pyTruthy it && it.isDict && chain_keep_band cp it)) := by
  induction items with
  | nil => rfl
  | cons it rest ih =>
      by_cases hk : (pyTruthy it && it.isDict && chain_keep_band cp it) = true
      · simp [chain_loop, hk, List.filter_cons, build_contracts, ih]
      · simp [chain_loop, hk, List.filter_cons, ih]

/-- `build_contracts` succeeds exactly when every record normalizes, and
then returns the in-order normalizations. -/
theorem build_contracts_ok_iff (s e : String) (f : PyVal → PyVal) (l : List PyVal)
    (cs : List OptionContract) :
    build_contracts s e f l = Except.ok cs ↔
      List.Forall₂ (fun it c => build_contract (f it) s e = Except.ok c) l cs := by
  induction l generalizing cs with
  | nil =>
      constructor
      · intro h
        cases cs with
        | nil => exact List.Forall₂.nil
        | cons c cs' => simp [build_contracts] at h
      · intro h
        cases h
        rfl
  | cons it rest ih =>
      constructor
      · intro h
        simp only [build_contracts] at h
        cases hb : build_contract (f it) s e with
        | error er => rw [hb] at h; cases h
        | ok c =>
            rw [hb] at h
            cases hr : build_contracts s e f rest with
            | error er => rw [hr] at h; cases h
            | ok cs' =>
                rw [hr] at h
                injection h with h'
                subst h'
                exact List.Forall₂.cons hb ((ih cs').mp hr)
      · intro h
        cases h with
        | cons hb hrest =>
            simp only [build_contracts, hb, (ih _).mpr hrest]

/-- A member of the right list of a `Forall₂` is related to some member of
the left list. -/
theorem forall2_mem_right {α β : Type} {R : α → β → Prop} :
    ∀ {l : List α} {l' : List β}, List.Forall₂ R l l' → ∀ b ∈ l', ∃ a ∈ l, R a b := by
  intro l l' h
  induction h with
  | nil => intro b hb; cases hb
  | cons hr ht ih =>
      intro b hb
      rcases List.mem_cons.mp hb with rfl | hb'
      · exact ⟨_, by simp, hr⟩
      · rcases ih b hb' with ⟨a, ha, hra⟩
        exact ⟨a, by simp [ha], hra⟩

/-- On a successfully normalized record, the type and mark fields are the
ones `_build_contract` computes from the raw record. -/
theorem build_contract_ok_fields (item : PyVal) (s e : String) (c : OptionContract)
    (h : build_contract item s e = Except.ok c) :
    c.type = resolve_contract_type (pyGetD item "type" PyVal.none)
    ∧ c.mark_price = coerce_numeric
        (pyOr (pyGetD item "adjusted_mark_price" PyVal.none)
          (pyGetD item "mark_price" PyVal.none)) := by
  unfold build_contract at h
  split at h
  · injection h with h'
    subst h'
    exact ⟨rfl, rfl⟩
  · cases h

/-- The near-the-money decision for an entry whose strike parses: keep
exactly the strikes inside the inclusive band `[0.80*p, 1.20*p]`. -/
theorem chain_keep_band_parsed (p q : ℚ) (item : PyVal) (hp : 0 < p)
    (hq : pyFloat (pyGetD item "strike_price" (PyVal.num 0)) = Except.ok q) :
    (chain_keep_band (some p) item = true ↔
      ((0.80 : ℚ) * p ≤ q ∧ q ≤ (1.20 : ℚ) * p)) := by
  have hp0 : ¬p = 0 := ne_of_gt hp
  simp [chain_keep_band, hp0, hq, not_lt]

/-! ## C1 -/

/-- C1: in chain-listing mode with a positive reference price `P`, the
program's result is the in-order normalization of exactly the kept entries
(so whenever a list is returned, it corresponds one-to-one to the kept
entries), and an entry whose strike parses to `q` is kept iff
`0.80*P ≤ q ≤ 1.20*P` (boundary-inclusive). -/
theorem claim_C1_near_the_money_filter
    (env : Env) (s e : String) (ot : Option String) (P : ℚ) (items : List PyVal)
    (hP : (get_current_price env s).1 = some P) (hPpos : 0 < P)
    (hfind : env.find_tradable_options s e ot = Except.ok (PyVal.list items)) :
    ((chain_listing env s e ot).1 =
      build_contracts s e (fun it => it)
        (items.filter (fun it => pyTruthy it && it.isDict && chain_keep_band (some P) it)))
    ∧ (∀ cs, (chain_listing env s e ot).1 = Except.ok cs →
        List.Forall₂ (fun it c => build_contract it s e = Except.ok c)
          (items.filter (fun it => pyTruthy it && it.isDict && chain_keep_band (some P) it))
          cs)
    ∧ ∀ it ∈ items, ∀ q, pyFloat (pyGetD it "strike_price" (PyVal.num 0)) = Except.ok q →
        (chain_keep_band (some P) it = true ↔
          ((0.80 : ℚ) * P ≤ q ∧ q ≤ (1.20 : ℚ) * P)) := by
  have h1 : (chain_listing env s e ot).1 =
      build_contracts s e (fun it => it)
        (items.filter (fun it => pyTruthy it && it.isDict && chain_keep_band (some P) it)) := by
    rw [chain_listing_spec env s e ot items hfind, hP, chain_loop_eq_build]
  refine ⟨h1, ?_, ?_⟩
  · intro cs hcs
    rw [h1] at hcs
    exact (build_contracts_ok_iff s e (fun it => it) _ cs).mp hcs
  · intro it _ q hq
    exact chain_keep_band_parsed P q it hPpos hq

/-- C1 witness: reference price 100 over strikes 80, 79.99, 120, 120.01
retains exactly the entries at 80 and 120, and the call returns their
normalizations. -/
theorem claim_C1_near_the_money_filter_witness :
    ((chain_listing envBand "AAPL" "2026-03-20" Option.none).1 =
      build_contracts "AAPL" "2026-03-20" (fun it => it)
        ([itemS80, itemS7999, itemS120, itemS12001].filter
          (fun it => pyTruthy it && it.isDict && chain_keep_band (some 100) it)))
    ∧ (chain_listing envBand "AAPL" "2026-03-20" Option.none).1 =
        Except.ok [contractS80, contractS120] := by
  refine ⟨?_, by rfl⟩
  exact (claim_C1_near_the_money_filter envBand "AAPL" "2026-03-20" Option.none 100
    [itemS80, itemS7999, itemS120, itemS12001] (by decide) (by norm_num) (by rfl)).1

/-! ## C4 -/

/-- C4: when the latest-price lookup raises or returns a falsy value, no
reference price is obtained, no near-the-money filtering is applied, and
the program's result is the in-order normalization of the full upstream
listing with only falsy/non-dict entries dropped (so whenever a list is
returned, it corresponds one-to-one to all remaining entries). -/
theorem claim_C4_fail_open_filtering
    (env : Env) (s e : String) (ot : Option String)
    (hfail : ∀ v, env.get_latest_price s = Except.ok v → pyTruthy v = false) :
    (get_current_price env s).1 = Option.none
    ∧ ∀ items, env.find_tradable_options s e ot = Except.ok (PyVal.list items) →
        (((chain_listing env s e ot).1 =
          build_contracts s e (fun it => it)
            (items.filter (fun it => pyTruthy it && it.isDict)))
        ∧ ∀ cs, (chain_listing env s e ot).1 = Except.ok cs →
            List.Forall₂ (fun it c => build_contract it s e = Except.ok c)
              (items.filter (fun it => pyTruthy it && it.isDict)) cs) := by
  have hnone : (get_current_price env s).1 = Option.none := by
    cases hlp : env.get_latest_price s with
    | error err => simp [get_current_price, hlp]
    | ok v => simp [get_current_price, hlp, hfail v hlp]
  refine ⟨hnone, fun items hfind => ?_⟩
  have h1 : (chain_listing env s e ot).1 =
      build_contracts s e (fun it => it)
        (items.filter (fun it => pyTruthy it && it.isDict)) := by
    rw [chain_listing_spec env s e ot items hfind, hnone, chain_loop_eq_build]
    congr 1
    apply List.filter_congr
    intro it _
    simp [chain_keep_band]
  refine ⟨h1, fun cs hcs => ?_⟩
  rw [h1] at hcs
  exact (build_contracts_ok_iff s e (fun it => it) _ cs).mp hcs

/-- C4 witness: the latest-price call of `envPriceFail` raises, and the
listing returns every dict entry normalized — the strike-500 entry
included — dropping only the null entry. -/
theorem claim_C4_fail_open_filtering_witness :
    ((chain_listing envPriceFail "AAPL" "2026-03-20" Option.none).1 =
      build_contracts "AAPL" "2026-03-20" (fun it => it)
        ([itemS80, PyVal.none,
          PyVal.dict [("strike_price", PyVal.str "500"), ("type", PyVal.str "call")]].filter
          (fun it => pyTruthy it && it.isDict)))
    ∧ (chain_listing envPriceFail "AAPL" "2026-03-20" Option.none).1 =
        Except.ok [contractS80, contractS500] := by
  refine ⟨?_, by rfl⟩
  exact ((claim_C4_fail_open_filtering envPriceFail "AAPL" "2026-03-20" Option.none
    (fun v h => by cases h)).2
    [itemS80, PyVal.none,
      PyVal.dict [("strike_price", PyVal.str "500"), ("type", PyVal.str "call")]]
    (by rfl)).1

/-! ## C5 -/

/-- C5: every record `_build_contract` actually produces has type `"call"`
exactly when the raw upstream type field is the literal string `"call"`,
and `"put"` in every other case; it is always one of the two. -/
theorem claim_C5_type_defaults_to_put (item : PyVal) (s e : String) :
    ∀ c, build_contract item s e = Except.ok c →
      ((c.type = "call" ↔ pyGetD item "type" PyVal.none = PyVal.str "call")
      ∧ (c.type = "call" ∨ c.type = "put")) := by
  intro c hc
  have htype : c.type = resolve_contract_type (pyGetD item "type" PyVal.none) :=
    (build_contract_ok_fields item s e c hc).1
  rw [htype]
  cases hv : pyGetD item "type" PyVal.none with
  | str sv =>
      by_cases hs : sv = "call"
      · subst hs
        simp [resolve_contract_type]
      · have hput : resolve_contract_type (PyVal.str sv) = "put" := by
          unfold resolve_contract_type
          split
          · next heq => exact absurd (by injection heq) hs
          · rfl
        simp [hput, hs]
  | none => simp [resolve_contract_type]
  | num q => simp [resolve_contract_type]
  | list xs => simp [resolve_contract_type]
  | dict d => simp [resolve_contract_type]

/-- C5 witness: the call-typed instrument at strike 80 normalizes to a
record of type `"call"`. -/
theorem claim_C5_type_defaults_to_put_witness :
    build_contract itemS80 "AAPL" "2026-03-20" = Except.ok contractS80
    ∧ contractS80.type = "call"
    ∧ pyGetD itemS80 "type" PyVal.none = PyVal.str "call" := by
  refine ⟨by rfl, ?_, by rfl⟩
  exact (claim_C5_type_defaults_to_put itemS80 "AAPL" "2026-03-20" contractS80
    (by rfl)).1.mpr rfl

/-! ## C10 -/

/-- C10: with a positive reference price, an entry with no `strike_price`
key defaults to strike 0 and is dropped by the near-the-money decision,
while an entry whose strike value does not parse as a number is kept. -/
theorem claim_C10_missing_vs_malformed_strike (p : ℚ) (d : List (String × PyVal)) :
    (0 < p → lookupKey d "strike_price" = Option.none →
      chain_keep_band (some p) (PyVal.dict d) = false)
    ∧ (∀ v, 0 < p → lookupKey d "strike_price" = some v → pyFloat v = Except.error () →
      chain_keep_band (some p) (PyVal.dict d) = true) := by
  constructor
  · intro hp hlk
    have hp0 : ¬p = 0 := ne_of_gt hp
    have hget : pyGetD (PyVal.dict d) "strike_price" (PyVal.num 0) = PyVal.num 0 := by
      simp [pyGetD, hlk]
    have hlt : (0 : ℚ) < (0.80 : ℚ) * p := by
      have h08 : (0 : ℚ) < (0.80 : ℚ) := by norm_num
      exact mul_pos h08 hp
    simp [chain_keep_band, hp0, hget, pyFloat, hlt]
  · intro v hp hlk herr
    have hp0 : ¬p = 0 := ne_of_gt hp
    have hget : pyGetD (PyVal.dict d) "strike_price" (PyVal.num 0) = v := by
      simp [pyGetD, hlk]
    simp [chain_keep_band, hp0, hget, herr]

/-- C10 witness: at reference price 100, a dict without a `strike_price`
key is dropped, and a dict whose strike is `"not_a_number"` is kept. -/
theorem claim_C10_missing_vs_malformed_strike_witness :
    chain_keep_band (some 100) (PyVal.dict [("type", PyVal.str "call")]) = false
    ∧ chain_keep_band (some 100)
        (PyVal.dict [("strike_price", PyVal.str "not_a_number")]) = true := by
  constructor
  · exact (claim_C10_missing_vs_malformed_strike 100 [("type", PyVal.str "call")]).1
      (by norm_num) (by rfl)
  · exact (claim_C10_missing_vs_malformed_strike 100
      [("strike_price", PyVal.str "not_a_number")]).2
      (PyVal.str "not_a_number") (by norm_num) (by rfl) (by rfl)

/-! ## Call-trace lemmas -/

/-- The best-effort price lookup always performs exactly its one upstream
call, whatever the outcome. -/
theorem get_current_price_log (env : Env) (s : String) :
    (get_current_price env s).2 = [CallEvent.getLatestPrice s] := by
  unfold get_current_price
  cases env.get_latest_price s with
  | error er => rfl
  | ok v =>
      by_cases htr : pyTruthy v
      · simp only [htr, if_true]
        cases pyIndex0 v with
        | error er => rfl
        | ok p0 =>
            by_cases ht0 : pyTruthy p0
            · simp only [ht0, if_true]
              cases pyFloat p0 <;> rfl
            · simp [ht0]
      · simp [htr]

/-- `_chain_listing`'s call trace is its listing query, followed by the
latest-price query exactly when the listing response was truthy. -/
theorem chain_listing_log_eq (env : Env) (s e : String) (ot : Option String) :
    (chain_listing env s e ot).2 = [CallEvent.findTradableOptions s e ot]
    ∨ (chain_listing env s e ot).2 =
        [CallEvent.findTradableOptions s e ot, CallEvent.getLatestPrice s] := by
  unfold chain_listing
  cases hfind : env.find_tradable_options s e ot with
  | error er => exact Or.inl rfl
  | ok od =>
      by_cases htr : pyTruthy od
      · right
        simp only [htr, if_true]
        cases hit : pyIterate od <;> simp [get_current_price_log]
      · left
        simp [htr]

/-- Every call the targeted type loop performs is a market-data query for
one of the requested types, keyed by the given symbol/expiration/strike. -/
theorem targeted_loop_log_mem (env : Env) (s e sp : String) (ots : List String) :
    ∀ ev ∈ (targeted_loop env s e sp ots).2,
      ∃ ot ∈ ots, ev = CallEvent.getOptionMarketData s e sp ot := by
  induction ots with
  | nil => intro ev hev; simp [targeted_loop] at hev
  | cons ot rest ih =>
      intro ev hev
      unfold targeted_loop at hev
      cases hmd : env.get_option_market_data s e sp ot with
      | error er =>
          rw [hmd] at hev
          simp at hev
          exact ⟨ot, by simp, hev⟩
      | ok md =>
          rw [hmd] at hev
          by_cases htr : pyTruthy md
          · simp only [htr, if_true] at hev
            cases hit : pyIterate md with
            | error er =>
                rw [hit] at hev
                simp at hev
                exact ⟨ot, by simp, hev⟩
            | ok entries =>
                rw [hit] at hev
                dsimp only at hev
                cases hbc : build_contracts s e (fun item => setdefault3 item ot sp e)
                    (targeted_raw_items entries) with
                | error er2 =>
                    rw [hbc] at hev
                    simp at hev
                    exact ⟨ot, by simp, hev⟩
                | ok here =>
                    rw [hbc] at hev
                    rcases hrec : targeted_loop env s e sp rest with ⟨res, log⟩
                    rw [hrec] at hev
                    cases res with
                    | error er =>
                        simp at hev
                        rcases hev with rfl | h
                        · exact ⟨ot, by simp, rfl⟩
                        · rcases ih ev (by rw [hrec]; exact h) with ⟨ot', hot', rfl⟩
                          exact ⟨ot', by simp [hot'], rfl⟩
                    | ok cs =>
                        simp at hev
                        rcases hev with rfl | h
                        · exact ⟨ot, by simp, rfl⟩
                        · rcases ih ev (by rw [hrec]; exact h) with ⟨ot', hot', rfl⟩
                          exact ⟨ot', by simp [hot'], rfl⟩
          · simp only [htr, if_false] at hev
            rcases hrec : targeted_loop env s e sp rest with ⟨res, log⟩
            rw [hrec] at hev
            simp at hev
            rcases hev with rfl | h
            · exact ⟨ot, by simp, rfl⟩
            · rcases ih ev (by rw [hrec]; exact h) with ⟨ot', hot', rfl⟩
              exact ⟨ot', by simp [hot'], rfl⟩

/-- The head of the targeted type loop's call trace is the market-data
query for the first requested type. -/
theorem targeted_loop_log_head (env : Env) (s e sp ot : String) (rest : List String) :
    ∃ t, (targeted_loop env s e sp (ot :: rest)).2 =
      CallEvent.getOptionMarketData s e sp ot :: t := by
  unfold targeted_loop
  cases hmd : env.get_option_market_data s e sp ot with
  | error er => exact ⟨[], rfl⟩
  | ok md =>
      by_cases htr : pyTruthy md
      · simp only [htr, if_true]
        cases hit : pyIterate md with
        | error er => exact ⟨[], rfl⟩
        | ok entries =>
            dsimp only
            cases hbc : build_contracts s e (fun item => setdefault3 item ot sp e)
                (targeted_raw_items entries) with
            | error er2 => exact ⟨[], rfl⟩
            | ok here =>
                rcases hrec : targeted_loop env s e sp rest with ⟨res, log⟩
                cases res <;> simp
      · rcases hrec : targeted_loop env s e sp rest with ⟨res, log⟩
        simp [htr]

/-- A string different from `""` has `isEmpty = false`. -/
theorem isEmpty_false_of_ne (s : String) (h : ¬s = "") : s.isEmpty = false := by
  cases he : s.isEmpty
  · rfl
  · exact absurd ((String.isEmpty_iff s).mp he) h

/-- Dispatch with no strike argument is the chain listing. -/
theorem options_chain_dispatch_none (env : Env) (s e : String) (ot : Option String) :
    options_chain_dispatch env s e ot Option.none = chain_listing env s e ot := rfl

/-- Dispatch with a strike argument selects on its truthiness. -/
theorem options_chain_dispatch_some (env : Env) (s e : String) (ot : Option String)
    (sp' : String) :
    options_chain_dispatch env s e ot (some sp') =
      if sp'.isEmpty then chain_listing env s e ot
      else targeted_lookup env s e sp' ot := rfl

/-- Targeted lookup with no type argument fetches both types. -/
theorem targeted_lookup_none (env : Env) (s e sp : String) :
    targeted_lookup env s e sp Option.none = targeted_loop env s e sp ["call", "put"] := rfl

/-- Targeted lookup with a type argument selects on its truthiness. -/
theorem targeted_lookup_some (env : Env) (s e sp o : String) :
    targeted_lookup env s e sp (some o) =
      targeted_loop env s e sp (if o.isEmpty then ["call", "put"] else [o]) := rfl

/-- Every event of `_chain_listing`'s trace is keyed by its expiration
argument and is never a chain-metadata query. -/
theorem chain_listing_event_prop (env : Env) (s e : String) (ot : Option String) :
    ∀ ev ∈ (chain_listing env s e ot).2,
      ev.isGetChains = false ∧ ∀ x, ev.expUsed = some x → x = e := by
  intro ev hev
  rcases chain_listing_log_eq env s e ot with h | h <;> rw [h] at hev <;> simp at hev
  · subst hev
    refine ⟨rfl, fun x hx => ?_⟩
    simp [CallEvent.expUsed] at hx
    exact hx.symm
  · rcases hev with rfl | rfl
    · refine ⟨rfl, fun x hx => ?_⟩
      simp [CallEvent.expUsed] at hx
      exact hx.symm
    · refine ⟨rfl, fun x hx => ?_⟩
      simp [CallEvent.expUsed] at hx

/-- Every event of the dispatcher's trace is keyed by the resolved
expiration and is never a chain-metadata query. -/
theorem dispatch_event_prop (env : Env) (s e : String) (ot sp : Option String) :
    ∀ ev ∈ (options_chain_dispatch env s e ot sp).2,
      ev.isGetChains = false ∧ ∀ x, ev.expUsed = some x → x = e := by
  intro ev hev
  have htgt : ∀ sp', ev ∈ (targeted_lookup env s e sp' ot).2 →
      ev.isGetChains = false ∧ ∀ x, ev.expUsed = some x → x = e := by
    intro sp' hev'
    cases ot with
    | none =>
        rw [targeted_lookup_none] at hev'
        rcases targeted_loop_log_mem env s e sp' _ ev hev' with ⟨ot', _, rfl⟩
        refine ⟨rfl, fun x hx => ?_⟩
        simp [CallEvent.expUsed] at hx
        exact hx.symm
    | some o =>
        rw [targeted_lookup_some] at hev'
        rcases targeted_loop_log_mem env s e sp' _ ev hev' with ⟨ot', _, rfl⟩
        refine ⟨rfl, fun x hx => ?_⟩
        simp [CallEvent.expUsed] at hx
        exact hx.symm
  cases sp with
  | none =>
      rw [options_chain_dispatch_none] at hev
      exact chain_listing_event_prop env s e ot ev hev
  | some sp' =>
      rw [options_chain_dispatch_some] at hev
      by_cases hsp : sp'.isEmpty
      · rw [if_pos hsp] at hev
        exact chain_listing_event_prop env s e ot ev hev
      · rw [if_neg hsp] at hev
        exact htgt sp' hev

/-- The dispatcher always performs at least one upstream data query keyed
by the resolved expiration. -/
theorem dispatch_has_exp_event (env : Env) (s e : String) (ot sp : Option String) :
    ∃ ev ∈ (options_chain_dispatch env s e ot sp).2, ev.expUsed = some e := by
  have hchain : ∃ ev ∈ (chain_listing env s e ot).2, ev.expUsed = some e := by
    rcases chain_listing_log_eq env s e ot with h | h <;> rw [h]
    · exact ⟨CallEvent.findTradableOptions s e ot, by simp, rfl⟩
    · exact ⟨CallEvent.findTradableOptions s e ot, by simp, rfl⟩
  have htgt : ∀ sp',
      ∃ ev ∈ (targeted_lookup env s e sp' ot).2, ev.expUsed = some e := by
    intro sp'
    cases ot with
    | none =>
        rw [targeted_lookup_none]
        rcases targeted_loop_log_head env s e sp' "call" ["put"] with ⟨t, ht⟩
        exact ⟨CallEvent.getOptionMarketData s e sp' "call", by rw [ht]; simp, rfl⟩
    | some o =>
        rw [targeted_lookup_some]
        by_cases ho : o.isEmpty
        · rw [if_pos ho]
          rcases targeted_loop_log_head env s e sp' "call" ["put"] with ⟨t, ht⟩
          exact ⟨CallEvent.getOptionMarketData s e sp' "call", by rw [ht]; simp, rfl⟩
        · rw [if_neg ho]
          rcases targeted_loop_log_head env s e sp' o [] with ⟨t, ht⟩
          exact ⟨CallEvent.getOptionMarketData s e sp' o, by rw [ht]; simp, rfl⟩
  cases sp with
  | none =>
      rw [options_chain_dispatch_none]
      exact hchain
  | some sp' =>
      rw [options_chain_dispatch_some]
      by_cases hsp : sp'.isEmpty
      · rw [if_pos hsp]
        exact hchain
      · rw [if_neg hsp]
        exact htgt sp'

/-- With a non-empty symbol and a working session, the full call's trace is
the session check followed by the body's trace, and the body with a
non-empty expiration argument is exactly the dispatcher. -/
theorem get_options_chain_log (env : Env) (s : String) (ed ot sp : Option String)
    (hs : ¬s = "") (hsess : env.ensure_session = Except.ok ()) :
    (get_options_chain env s ed ot sp).2 =
      CallEvent.ensureSession :: (options_chain_body env s ed ot sp).2 := by
  have hse : s.isEmpty = false := isEmpty_false_of_ne s hs
  unfold get_options_chain
  rw [hse, hsess]
  rcases hb : options_chain_body env s ed ot sp with ⟨res, log⟩
  cases res <;> simp

/-- The body with a truthy expiration argument is the dispatcher on that
very string: no chain-metadata query happens. -/
theorem options_chain_body_given_exp (env : Env) (s e : String) (ot sp : Option String)
    (he : ¬e = "") :
    options_chain_body env s (some e) ot sp = options_chain_dispatch env s e ot sp := by
  have hfal : optStrFalsy (some e) = false := isEmpty_false_of_ne e he
  unfold options_chain_body
  rw [hfal]
  simp

/-- The body with a falsy expiration argument, when the chain metadata is a
truthy dict whose expiration set is a non-empty list, dispatches on the
stringified first expiration after its one chain-metadata query. -/
theorem options_chain_body_resolved (env : Env) (s : String) (ed ot sp : Option String)
    (chains x : PyVal) (rest : List PyVal)
    (hfal : optStrFalsy ed = true)
    (hch : env.get_chains s = Except.ok chains)
    (ht : pyTruthy chains = true) (hd : chains.isDict = true)
    (hexp : pyGetD chains "expiration_dates" (PyVal.list []) = PyVal.list (x :: rest)) :
    options_chain_body env s ed ot sp =
      ((options_chain_dispatch env s (pyStr x) ot sp).1,
        CallEvent.getChains s :: (options_chain_dispatch env s (pyStr x) ot sp).2) := by
  unfold options_chain_body
  rw [hfal, hch]
  simp only [ht, hd, hexp, Bool.and_self, if_true]
  have htr : pyTruthy (PyVal.list (x :: rest)) = true := by simp [pyTruthy]
  rw [if_pos htr]
  rcases hdp : options_chain_dispatch env s (pyStr x) ot sp with ⟨res, log⟩
  simp [pyIndex0, hdp]

/-- The body with a falsy expiration argument short-circuits to an empty
result after its one chain-metadata query when the chain data is falsy,
not a dict, or has a falsy expiration set. -/
theorem options_chain_body_no_data (env : Env) (s : String) (ed ot sp : Option String)
    (chains : PyVal)
    (hfal : optStrFalsy ed = true)
    (hch : env.get_chains s = Except.ok chains)
    (hbad : pyTruthy chains = false ∨ chains.isDict = false
      ∨ pyTruthy (pyGetD chains "expiration_dates" (PyVal.list [])) = false) :
    options_chain_body env s ed ot sp = (Except.ok [], [CallEvent.getChains s]) := by
  unfold options_chain_body
  rw [hfal, hch]
  rcases hbad with h | h | h
  · simp [h]
  · simp [h]
  · by_cases hok : pyTruthy chains && chains.isDict
    · simp [hok, h]
    · simp [hok]

/-! ## C3 -/

/-- C3: with a working session, (i) a non-empty `expiration_date` is used
verbatim for every upstream data query and no chain-metadata query occurs;
(ii) with a falsy `expiration_date` and chain metadata whose expiration set
is a non-empty list, every upstream data query is keyed by the stringified
first expiration, and at least one such query happens; (iii) with falsy
`expiration_date` and falsy/non-dict chain data or a falsy expiration set,
the call returns an empty list without raising, after only the session
check and the chain-metadata query. -/
theorem claim_C3_expiration_resolution (env : Env) (s : String) (ot sp : Option String)
    (hs : ¬s = "") (hsess : env.ensure_session = Except.ok ()) :
    (∀ e, ¬e = "" →
      ((get_options_chain env s (some e) ot sp).2.filter CallEvent.isGetChains = []
      ∧ (∀ ev ∈ (get_options_chain env s (some e) ot sp).2,
          ∀ x, ev.expUsed = some x → x = e)
      ∧ ∃ ev ∈ (get_options_chain env s (some e) ot sp).2, ev.expUsed = some e))
    ∧ (∀ (ed : Option String) (chains x : PyVal) (rest : List PyVal),
        optStrFalsy ed = true →
        env.get_chains s = Except.ok chains →
        pyTruthy chains = true → chains.isDict = true →
        pyGetD chains "expiration_dates" (PyVal.list []) = PyVal.list (x :: rest) →
        ((∀ ev ∈ (get_options_chain env s ed ot sp).2,
            ∀ y, ev.expUsed = some y → y = pyStr x)
        ∧ ∃ ev ∈ (get_options_chain env s ed ot sp).2, ev.expUsed = some (pyStr x)))
    ∧ (∀ (ed : Option String) (chains : PyVal),
        optStrFalsy ed = true →
        env.get_chains s = Except.ok chains →
        (pyTruthy chains = false ∨ chains.isDict = false
          ∨ pyTruthy (pyGetD chains "expiration_dates" (PyVal.list [])) = false) →
        get_options_chain env s ed ot sp =
          (Except.ok [], [CallEvent.ensureSession, CallEvent.getChains s])) := by
  refine ⟨?_, ?_, ?_⟩
  · intro e he
    have hlog := get_options_chain_log env s (some e) ot sp hs hsess
    have hbody := options_chain_body_given_exp env s e ot sp he
    rw [hlog, hbody]
    refine ⟨?_, ?_, ?_⟩
    · rw [List.filter_cons]
      have h1 : (CallEvent.ensureSession).isGetChains = false := rfl
      rw [h1]
      simp only [Bool.false_eq_true, if_false]
      rw [List.filter_eq_nil_iff]
      intro ev hev
      exact fun hc => by
        have := (dispatch_event_prop env s e ot sp ev hev).1
        rw [this] at hc
        exact Bool.false_ne_true hc
    · intro ev hev x hx
      rcases List.mem_cons.mp hev with rfl | hev'
      · simp [CallEvent.expUsed] at hx
      · exact (dispatch_event_prop env s e ot sp ev hev').2 x hx
    · rcases dispatch_has_exp_event env s e ot sp with ⟨ev, hev, hx⟩
      exact ⟨ev, List.mem_cons_of_mem _ hev, hx⟩
  · intro ed chains x rest hfal hch ht hd hexp
    have hlog := get_options_chain_log env s ed ot sp hs hsess
    have hbody := options_chain_body_resolved env s ed ot sp chains x rest
      hfal hch ht hd hexp
    rw [hlog, hbody]
    constructor
    · intro ev hev y hy
      rcases List.mem_cons.mp hev with rfl | hev'
      · simp [CallEvent.expUsed] at hy
      · rcases List.mem_cons.mp hev' with rfl | hev''
        · simp [CallEvent.expUsed] at hy
        · exact (dispatch_event_prop env s (pyStr x) ot sp ev hev'').2 y hy
    · rcases dispatch_has_exp_event env s (pyStr x) ot sp with ⟨ev, hev, hx⟩
      exact ⟨ev, List.mem_cons_of_mem _ (List.mem_cons_of_mem _ hev), hx⟩
  · intro ed chains hfal hch hbad
    have hbody := options_chain_body_no_data env s ed ot sp chains hfal hch hbad
    have hse : s.isEmpty = false := isEmpty_false_of_ne s hs
    unfold get_options_chain
    rw [hse, hsess, hbody]
    rfl

/-- C3 witness: with chain metadata `["2026-03-20", "2026-04-17"]` the
first date keys the data queries; with an empty expiration set the call
returns an empty list after only the session check and metadata query. -/
theorem claim_C3_expiration_resolution_witness :
    (∃ ev ∈ (get_options_chain envChains "AAPL" Option.none Option.none Option.none).2,
      ev.expUsed = some "2026-03-20")
    ∧ get_options_chain envChainsEmpty "AAPL" Option.none Option.none Option.none =
        (Except.ok [], [CallEvent.ensureSession, CallEvent.getChains "AAPL"]) := by
  constructor
  · exact ((claim_C3_expiration_resolution envChains "AAPL" Option.none Option.none
      (by decide) rfl).2.1 Option.none chainsTwo (PyVal.str "2026-03-20")
      [PyVal.str "2026-04-17"] rfl rfl rfl rfl rfl).2
  · exact (claim_C3_expiration_resolution envChainsEmpty "AAPL" Option.none Option.none
      (by decide) rfl).2.2 Option.none chainsEmpty rfl rfl (Or.inr (Or.inr rfl))

/-! ## C6 -/

/-- C6 counterexample: a valid-strike record carrying both an adjusted-mark
field (the falsy value 0) and a plain mark field (5) normalizes to the
plain mark value 5, not to the adjusted value 0 — the preference is by
Python truthiness, not by key presence. -/
theorem claim_C6_adjusted_mark_counterexample :
    lookupKey [("strike_price", PyVal.str "150.00"), ("type", PyVal.str "call"),
        ("adjusted_mark_price", PyVal.num 0), ("mark_price", PyVal.num 5)]
      "adjusted_mark_price" = some (PyVal.num 0)
    ∧ lookupKey [("strike_price", PyVal.str "150.00"), ("type", PyVal.str "call"),
        ("adjusted_mark_price", PyVal.num 0), ("mark_price", PyVal.num 5)]
      "mark_price" = some (PyVal.num 5)
    ∧ (match build_contract itemMarkFalsy "X" "2026-03-20" with
        | Except.ok c => some c.mark_price
        | Except.error _ => Option.none) = some (some 5)
    ∧ coerce_numeric (PyVal.num 0) = some 0
    ∧ ¬((5 : ℚ) = 0) := by
  exact ⟨rfl, rfl, rfl, rfl, by norm_num⟩

/-- C6 (amended): on a record carrying both mark fields that
`_build_contract` actually normalizes, `mark_price` is the coercion of the
adjusted-mark value when that value is truthy, and of the plain mark value
when the adjusted value is falsy. -/
theorem claim_C6_adjusted_mark_preference
    (d : List (String × PyVal)) (s e : String) (a m : PyVal) (c : OptionContract)
    (ha : lookupKey d "adjusted_mark_price" = some a)
    (hm : lookupKey d "mark_price" = some m)
    (hok : build_contract (PyVal.dict d) s e = Except.ok c) :
    (pyTruthy a = true → c.mark_price = coerce_numeric a)
    ∧ (pyTruthy a = false → c.mark_price = coerce_numeric m) := by
  have hmp : c.mark_price =
      coerce_numeric (pyOr (pyGetD (PyVal.dict d) "adjusted_mark_price" PyVal.none)
        (pyGetD (PyVal.dict d) "mark_price" PyVal.none)) :=
    (build_contract_ok_fields (PyVal.dict d) s e c hok).2
  rw [hmp]
  constructor <;> intro h <;> simp [pyGetD, ha, hm, pyOr, h]

/-- C6 witness: with adjusted mark `"5.625"` (truthy) and plain mark
`"5.60"` both present on a valid-strike record, the program produces a
record whose mark is the adjusted value. -/
theorem claim_C6_adjusted_mark_preference_witness :
    ∃ c, build_contract itemMarkBoth "X" "2026-03-20" = Except.ok c
      ∧ c.mark_price = coerce_numeric (PyVal.str "5.625")
      ∧ pyTruthy (PyVal.str "5.625") = true := by
  refine ⟨_, rfl, ?_, rfl⟩
  exact (claim_C6_adjusted_mark_preference
    [("strike_price", PyVal.str "150.00"), ("type", PyVal.str "call"),
      ("adjusted_mark_price", PyVal.str "5.625"), ("mark_price", PyVal.str "5.60")]
    "X" "2026-03-20" (PyVal.str "5.625") (PyVal.str "5.60") _ rfl rfl rfl).1 rfl

/-! ## C8 -/

/-- C8: with an empty symbol, `get_options_chain` raises InvalidArgument
with an empty call trace — no session check and no upstream call occurs,
whatever the other arguments or the upstream world. -/
theorem claim_C8_empty_symbol_invalid_argument (env : Env) (ed ot sp : Option String) :
    get_options_chain env "" ed ot sp =
      (Except.error (Exc.invalidArgument "Symbol is required"), []) := rfl

/-! ## C7 -/

/-- C7: the wrapper of `get_options_chain` re-raises the three library
error kinds unchanged and turns transport errors and any other exception
into a `RobinhoodAPIError` carrying the original message; any error the
guarded body raises surfaces exactly through that wrapper; and a
non-numeric string coerces to null instead of raising. -/
theorem claim_C7_error_propagation :
    (∀ m : String,
      wrap_options_exc (Exc.invalidArgument m) = Exc.invalidArgument m
      ∧ wrap_options_exc (Exc.authRequired m) = Exc.authRequired m
      ∧ wrap_options_exc (Exc.robinhoodAPI m) = Exc.robinhoodAPI m
      ∧ wrap_options_exc (Exc.requestException m) =
          Exc.robinhoodAPI ("Failed to fetch options chain: " ++ m)
      ∧ wrap_options_exc (Exc.otherException m) =
          Exc.robinhoodAPI ("Failed to fetch options chain: " ++ m))
    ∧ (∀ (env : Env) (s : String) (ed ot sp : Option String) (err : Exc)
        (log : List CallEvent), ¬s = "" → env.ensure_session = Except.ok () →
        options_chain_body env s ed ot sp = (Except.error err, log) →
        (get_options_chain env s ed ot sp).1 = Except.error (wrap_options_exc err))
    ∧ (∀ s' : String, parseDecimal s' = Option.none →
        coerce_numeric (PyVal.str s') = Option.none) := by
  refine ⟨fun m => ⟨rfl, rfl, rfl, rfl, rfl⟩, ?_, fun s' h => by simp [coerce_numeric, h]⟩
  intro env s ed ot sp err log hs hsess hbody
  have hse : s.isEmpty = false := isEmpty_false_of_ne s hs
  unfold get_options_chain
  rw [hse, hsess, hbody]
  rfl

/-- C7 witness: a generic exception from the listing call surfaces as a
`RobinhoodAPIError` with the original message appended. -/
theorem claim_C7_error_propagation_witness :
    (get_options_chain envListingBoom "AAPL" (some "2026-03-20")
        Option.none Option.none).1 =
      Except.error (Exc.robinhoodAPI "Failed to fetch options chain: boom") := by
  exact claim_C7_error_propagation.2.1 envListingBoom "AAPL" (some "2026-03-20")
    Option.none Option.none (Exc.otherException "boom")
    [CallEvent.findTradableOptions "AAPL" "2026-03-20" Option.none]
    (by decide) rfl (by rfl)

/-! ## C9 -/

/-- C9: a holding entry whose instrument lookup raises still yields a
position — the whole call succeeds — with null strike, expiration and
option type, while direction, quantity, average price and both timestamps
come from the holding record itself. -/
theorem claim_C9_position_enrichment_degrades
    (env : Env) (items : List PyVal) (d : List (String × PyVal)) (u : String) (err : Exc)
    (hsess : env.ensure_session = Except.ok ())
    (hpd : env.get_open_option_positions = Except.ok (PyVal.list items))
    (hmem : PyVal.dict d ∈ items)
    (hdne : ¬d = [])
    (hurl : lookupKey d "option" = some (PyVal.str u))
    (hune : ¬u = "")
    (hfail : env.get_option_instrument_data_by_id (option_id_of_url u) =
      Except.error err) :
    ∃ l, get_option_positions env = Except.ok l
    ∧ build_position env (PyVal.dict d) ∈ l
    ∧ (build_position env (PyVal.dict d)).strike_price = Option.none
    ∧ (build_position env (PyVal.dict d)).expiration_date = PyVal.none
    ∧ (build_position env (PyVal.dict d)).option_type = PyVal.none
    ∧ (build_position env (PyVal.dict d)).direction = (lookupKey d "type").getD PyVal.none
    ∧ (build_position env (PyVal.dict d)).quantity =
        coerce_numeric ((lookupKey d "quantity").getD PyVal.none)
    ∧ (build_position env (PyVal.dict d)).average_price =
        coerce_numeric ((lookupKey d "average_price").getD PyVal.none)
    ∧ (build_position env (PyVal.dict d)).created_at =
        (lookupKey d "created_at").getD PyVal.none
    ∧ (build_position env (PyVal.dict d)).updated_at =
        (lookupKey d "updated_at").getD PyVal.none := by
  have htr : pyTruthy (PyVal.list items) = true := by
    simp [pyTruthy, List.isEmpty_iff, List.ne_nil_of_mem hmem]
  have hsing : isSingletonNone (PyVal.list items) = false := by
    cases items with
    | nil => cases hmem
    | cons x xs =>
        cases xs with
        | cons y ys => cases x <;> rfl
        | nil =>
            cases x with
            | none =>
                rcases List.mem_singleton.mp hmem with h
                cases h
            | str s' => rfl
            | num q => rfl
            | list l' => rfl
            | dict d' => rfl
  have hpos : get_option_positions env =
      Except.ok ((items.filter (fun it => pyTruthy it && it.isDict)).map
        (build_position env)) := by
    unfold get_option_positions
    rw [hsess, hpd]
    simp [htr, hsing, pyIterate]
  have hkeep : (pyTruthy (PyVal.dict d) && (PyVal.dict d).isDict) = true := by
    simp [pyTruthy, PyVal.isDict, List.isEmpty_iff, hdne]
  have hbp : build_position env (PyVal.dict d) =
      { symbol := pyGetD (PyVal.dict d) "chain_symbol" PyVal.none
        expiration_date := PyVal.none
        strike_price := coerce_numeric PyVal.none
        option_type := PyVal.none
        direction := pyGetD (PyVal.dict d) "type" PyVal.none
        quantity := coerce_numeric (pyGetD (PyVal.dict d) "quantity" PyVal.none)
        average_price := coerce_numeric (pyGetD (PyVal.dict d) "average_price" PyVal.none)
        created_at := pyGetD (PyVal.dict d) "created_at" PyVal.none
        updated_at := pyGetD (PyVal.dict d) "updated_at" PyVal.none } := by
    have hget : pyGetD (PyVal.dict d) "option" PyVal.none = PyVal.str u := by
      simp [pyGetD, hurl]
    have hu : pyTruthy (PyVal.str u) = true := by
      simp [pyTruthy, isEmpty_false_of_ne u hune]
    unfold build_position
    rw [hget]
    simp [hu, hfail]
  refine ⟨_, hpos, ?_, ?_⟩
  · exact List.mem_map_of_mem (build_position env)
      (List.mem_filter.mpr ⟨hmem, hkeep⟩)
  · rw [hbp]
    exact ⟨rfl, rfl, rfl, rfl, rfl, rfl, rfl, rfl⟩

/-- C9 witness: one holding whose instrument lookup raises comes back with
null strike/expiration/type and its own direction, quantity 2 and average
price 125.50. -/
theorem claim_C9_position_enrichment_degrades_witness :
    (∃ l, get_option_positions envPositions = Except.ok l
      ∧ build_position envPositions holdingItem ∈ l
      ∧ (build_position envPositions holdingItem).strike_price = Option.none
      ∧ (build_position envPositions holdingItem).expiration_date = PyVal.none
      ∧ (build_position envPositions holdingItem).option_type = PyVal.none
      ∧ (build_position envPositions holdingItem).direction =
          (lookupKey [("chain_symbol", PyVal.str "AAPL"),
            ("option", PyVal.str "https://api.robinhood.com/options/instruments/abc-123/"),
            ("type", PyVal.str "long"), ("quantity", PyVal.str "2.0000"),
            ("average_price", PyVal.str "125.50"),
            ("created_at", PyVal.str "2026-01-02T00:00:00Z"),
            ("updated_at", PyVal.str "2026-01-03T00:00:00Z")] "type").getD PyVal.none
      ∧ (build_position envPositions holdingItem).quantity =
          coerce_numeric ((lookupKey [("chain_symbol", PyVal.str "AAPL"),
            ("option", PyVal.str "https://api.robinhood.com/options/instruments/abc-123/"),
            ("type", PyVal.str "long"), ("quantity", PyVal.str "2.0000"),
            ("average_price", PyVal.str "125.50"),
            ("created_at", PyVal.str "2026-01-02T00:00:00Z"),
            ("updated_at", PyVal.str "2026-01-03T00:00:00Z")] "quantity").getD PyVal.none)
      ∧ (build_position envPositions holdingItem).average_price =
          coerce_numeric ((lookupKey [("chain_symbol", PyVal.str "AAPL"),
            ("option", PyVal.str "https://api.robinhood.com/options/instruments/abc-123/"),
            ("type", PyVal.str "long"), ("quantity", PyVal.str "2.0000"),
            ("average_price", PyVal.str "125.50"),
            ("created_at", PyVal.str "2026-01-02T00:00:00Z"),
            ("updated_at", PyVal.str "2026-01-03T00:00:00Z")] "average_price").getD PyVal.none)
      ∧ (build_position envPositions holdingItem).created_at =
          (lookupKey [("chain_symbol", PyVal.str "AAPL"),
            ("option", PyVal.str "https://api.robinhood.com/options/instruments/abc-123/"),
            ("type", PyVal.str "long"), ("quantity", PyVal.str "2.0000"),
            ("average_price", PyVal.str "125.50"),
            ("created_at", PyVal.str "2026-01-02T00:00:00Z"),
            ("updated_at", PyVal.str "2026-01-03T00:00:00Z")] "created_at").getD PyVal.none
      ∧ (build_position envPositions holdingItem).updated_at =
          (lookupKey [("chain_symbol", PyVal.str "AAPL"),
            ("option", PyVal.str "https://api.robinhood.com/options/instruments/abc-123/"),
            ("type", PyVal.str "long"), ("quantity", PyVal.str "2.0000"),
            ("average_price", PyVal.str "125.50"),
            ("created_at", PyVal.str "2026-01-02T00:00:00Z"),
            ("updated_at", PyVal.str "2026-01-03T00:00:00Z")] "updated_at").getD PyVal.none)
    ∧ (build_position envPositions holdingItem).quantity = some 2
    ∧ (build_position envPositions holdingItem).average_price = some (251 / 2) := by
  refine ⟨?_, by rfl, by rfl⟩
  exact claim_C9_position_enrichment_degrades envPositions [holdingItem] _
    "https://api.robinhood.com/options/instruments/abc-123/" (Exc.otherException "boom")
    rfl rfl (List.mem_singleton.mpr rfl) (by simp)
    rfl (by decide) rfl

/-! ## C2 lemmas -/

/-- Association lookup over an append scans the left list first. -/
theorem lookupKey_append (d1 d2 : List (String × PyVal)) (k : String) :
    lookupKey (d1 ++ d2) k =
      match lookupKey d1 k with
      | some v => some v
      | Option.none => lookupKey d2 k := by
  induction d1 with
  | nil => rfl
  | cons kv rest ih =>
      by_cases hk : kv.1 = k
      · simp [lookupKey, hk]
      · simp [lookupKey, hk, ih]

/-- `setdefault` leaves other keys untouched. -/
theorem lookupKey_setdefault_ne (d : List (String × PyVal)) (k k' : String) (v : PyVal)
    (h : ¬k = k') :
    lookupKey (pySetdefault d k' v) k = lookupKey d k := by
  unfold pySetdefault
  by_cases hs : (lookupKey d k').isSome
  · rw [if_pos hs]
  · rw [if_neg hs, lookupKey_append]
    cases hlk : lookupKey d k with
    | some w => rfl
    | none =>
        have h' : ¬k' = k := fun hh => h hh.symm
        simp [lookupKey, h']

/-- `setdefault` makes the key present, preferring the existing value. -/
theorem lookupKey_setdefault_self (d : List (String × PyVal)) (k : String) (v : PyVal) :
    lookupKey (pySetdefault d k v) k = some ((lookupKey d k).getD v) := by
  unfold pySetdefault
  cases hlk : lookupKey d k with
  | some w => simp [hlk]
  | none =>
      simp only [hlk, Option.isSome_none, Bool.false_eq_true, if_false, Option.getD_none]
      rw [lookupKey_append, hlk]
      simp [lookupKey]

/-- After the three `setdefault` calls of `_targeted_lookup`, the type
field is the record's own when present and the queried type otherwise. -/
theorem pyGetD_setdefault3_type (d : List (String × PyVal)) (ot sp e : String) :
    pyGetD (setdefault3 (PyVal.dict d) ot sp e) "type" PyVal.none =
      (lookupKey d "type").getD (PyVal.str ot) := by
  have h1 : pyGetD (setdefault3 (PyVal.dict d) ot sp e) "type" PyVal.none =
      (lookupKey (pySetdefault (pySetdefault (pySetdefault d "type" (PyVal.str ot))
        "strike_price" (PyVal.str sp)) "expiration_date" (PyVal.str e)) "type").getD
        PyVal.none := rfl
  rw [h1, lookupKey_setdefault_ne _ _ _ _ (by decide),
    lookupKey_setdefault_ne _ _ _ _ (by decide),
    lookupKey_setdefault_self]
  rfl

/-- Every raw record the type loop extracts is a truthy dict. -/
theorem md_records_isDict (v : PyVal) :
    ∀ it ∈ md_records v, pyTruthy it = true ∧ it.isDict = true := by
  intro it hit
  unfold md_records at hit
  by_cases htr : pyTruthy v
  · rw [if_pos htr] at hit
    cases hiter : pyIterate v with
    | error er => rw [hiter] at hit; cases hit
    | ok es =>
        rw [hiter] at hit
        have := (List.mem_filter.mp hit).2
        exact ⟨by simpa using (Bool.and_elim_left this), by simpa using (Bool.and_elim_right this)⟩
  · rw [if_neg htr] at hit
    cases hit

/-- Contracts a successful type-loop iteration produces: as many as the
extracted records, each carrying the queried type provided each record
omits or echoes it. -/
theorem md_build_types (v : PyVal) (s e sp ot : String) (cs : List OptionContract)
    (hb : md_build v s e sp ot = Except.ok cs)
    (hecho : ∀ it ∈ md_records v, type_echo_ok ot it) :
    cs.length = (md_records v).length
    ∧ ∀ c ∈ cs, c.type = resolve_contract_type (PyVal.str ot) := by
  have hf2 := (build_contracts_ok_iff s e (fun item => setdefault3 item ot sp e)
      (md_records v) cs).mp hb
  constructor
  · exact hf2.length_eq.symm
  · intro c hc
    rcases forall2_mem_right hf2 c hc with ⟨item, hitem, hbc⟩
    have hdict : item.isDict = true := (md_records_isDict v item hitem).2
    cases item with
    | dict d =>
        have htype : c.type =
            resolve_contract_type
              (pyGetD (setdefault3 (PyVal.dict d) ot sp e) "type" PyVal.none) :=
          (build_contract_ok_fields _ _ _ _ hbc).1
        rw [htype, pyGetD_setdefault3_type]
        rcases hecho (PyVal.dict d) hitem with hnone | hsome
        · rw [hnone]
          rfl
        · rw [hsome]
          rfl
    | none => cases hdict
    | str s2 => cases hdict
    | num q => cases hdict
    | list l2 => cases hdict

/-- The type loop on a single type performs exactly one market-data call,
whatever the response or its normalization. -/
theorem targeted_loop_log_single (env : Env) (s e sp ot : String) :
    (targeted_loop env s e sp [ot]).2 = [CallEvent.getOptionMarketData s e sp ot] := by
  unfold targeted_loop
  cases hmd : env.get_option_market_data s e sp ot with
  | error er => rfl
  | ok md =>
      dsimp only
      by_cases htr : pyTruthy md
      · rw [if_pos htr]
        cases hit : pyIterate md with
        | error er => rfl
        | ok es =>
            dsimp only
            cases hbc : build_contracts s e (fun item => setdefault3 item ot sp e)
                (targeted_raw_items es) with
            | error er2 => rfl
            | ok here => simp [targeted_loop]
      · rw [if_neg htr]
        simp [targeted_loop]

/-- When the first query of a two-type loop returns an iterable (or falsy)
response whose records normalize, both market-data calls happen, in
order. -/
theorem targeted_loop_log_two (env : Env) (s e sp : String) (v : PyVal)
    (cs : List OptionContract)
    (hc : env.get_option_market_data s e sp "call" = Except.ok v)
    (hv : pyTruthy v = false ∨ ∃ es, pyIterate v = Except.ok es)
    (hb : md_build v s e sp "call" = Except.ok cs) :
    (targeted_loop env s e sp ["call", "put"]).2 =
      [CallEvent.getOptionMarketData s e sp "call",
       CallEvent.getOptionMarketData s e sp "put"] := by
  have hsingle := targeted_loop_log_single env s e sp "put"
  rcases hrec : targeted_loop env s e sp ["put"] with ⟨res, log⟩
  have hlog : log = [CallEvent.getOptionMarketData s e sp "put"] := by
    rw [hrec] at hsingle
    exact hsingle
  rw [targeted_loop.eq_2, hc, hrec]
  dsimp only
  by_cases htr : pyTruthy v
  · rcases hv with hf | ⟨es, hes⟩
    · rw [htr] at hf; cases hf
    · rw [if_pos htr, hes]
      have hrecords : md_records v = targeted_raw_items es := by
        unfold md_records
        rw [if_pos htr, hes]
      have hb2 : build_contracts s e (fun item => setdefault3 item "call" sp e)
          (targeted_raw_items es) = Except.ok cs := by
        rw [← hrecords]
        exact hb
      dsimp only
      rw [hb2]
      cases res <;> simp [hlog]
  · rw [if_neg htr]
    simp [hlog]

/-- One successful, iterable (or falsy) market-data response whose records
normalize prepends its contracts to the rest of the loop. -/
theorem targeted_loop_step (env : Env) (s e sp ot : String) (rest : List String)
    (v : PyVal) (cs : List OptionContract)
    (hmd : env.get_option_market_data s e sp ot = Except.ok v)
    (hv : pyTruthy v = false ∨ ∃ es, pyIterate v = Except.ok es)
    (hb : md_build v s e sp ot = Except.ok cs) :
    (targeted_loop env s e sp (ot :: rest)).1 =
      match (targeted_loop env s e sp rest).1 with
      | Except.ok cs2 => Except.ok (cs ++ cs2)
      | Except.error er => Except.error er := by
  rcases hrec : targeted_loop env s e sp rest with ⟨res, log⟩
  rw [targeted_loop.eq_2, hmd, hrec]
  dsimp only
  by_cases htr : pyTruthy v
  · rcases hv with hf | ⟨es, hes⟩
    · rw [htr] at hf; cases hf
    · rw [if_pos htr, hes]
      have hrecords : md_records v = targeted_raw_items es := by
        unfold md_records
        rw [if_pos htr, hes]
      have hb2 : build_contracts s e (fun item => setdefault3 item ot sp e)
          (targeted_raw_items es) = Except.ok cs := by
        rw [← hrecords]
        exact hb
      dsimp only
      rw [hb2]
      cases res <;> rfl
  · rw [if_neg htr]
    have hmdr : md_records v = [] := by
      unfold md_records
      rw [if_neg htr]
    have hcs : cs = [] := by
      have hb2 := hb
      unfold md_build at hb2
      rw [hmdr] at hb2
      simp [build_contracts] at hb2
      exact hb2
    subst hcs
    cases res <;> simp

/-- With non-empty symbol, expiration and strike and a working session,
`get_options_chain` is the targeted lookup behind the session event and
the error wrapper. -/
theorem get_options_chain_targeted (env : Env) (s e sp : String) (ot : Option String)
    (hs : ¬s = "") (he : ¬e = "") (hsp : ¬sp = "")
    (hsess : env.ensure_session = Except.ok ()) :
    get_options_chain env s (some e) ot (some sp) =
      (match (targeted_lookup env s e sp ot).1 with
        | Except.ok cs => Except.ok cs
        | Except.error er => Except.error (wrap_options_exc er),
       CallEvent.ensureSession :: (targeted_lookup env s e sp ot).2) := by
  have hse : s.isEmpty = false := isEmpty_false_of_ne s hs
  have hspe : sp.isEmpty = false := isEmpty_false_of_ne sp hsp
  unfold get_options_chain
  rw [hse, hsess, options_chain_body_given_exp env s e ot (some sp) he,
    options_chain_dispatch_some, hspe]
  simp only [Bool.false_eq_true, if_false]
  rcases ht : targeted_lookup env s e sp ot with ⟨res, log⟩
  cases res <;> rfl

/-! ## C2 -/

/-- C2 counterexample: both targeted queries are well-formed (one pricing
record each, which normalizes), two market-data calls happen, yet the
result holds two `"put"` records and no `"call"` record, because the
call-query's record echoes type `"put"` and `setdefault` keeps it. -/
theorem claim_C2_targeted_lookup_counterexample :
    (md_records mdPutEcho).length = 1
    ∧ ((get_options_chain envEcho "AAPL" (some "2026-03-20") Option.none
          (some "150.00")).2.filter CallEvent.isMarketData).length = 2
    ∧ (match (get_options_chain envEcho "AAPL" (some "2026-03-20") Option.none
          (some "150.00")).1 with
        | Except.ok cs => cs.map OptionContract.type
        | Except.error _ => []) = ["put", "put"] := by
  exact ⟨rfl, rfl, rfl⟩

/-- C2 (amended): with strike given and type omitted, when the `"call"`
query returns an iterable (or falsy) response whose records normalize,
exactly the two market-data calls happen, in order `"call"` then `"put"`;
when additionally the `"put"` response is likewise iterable-or-falsy with
normalizing records, and each response is well-formed — at most one pricing
record that omits or echoes the queried type — the call returns the
accumulated records and holds at most one record per type; with a
non-empty type given, exactly one market-data call happens, for that type
only. -/
theorem claim_C2_targeted_lookup_call_counts
    (env : Env) (s e sp : String) (v : PyVal) (cs₁ : List OptionContract)
    (hs : ¬s = "") (he : ¬e = "") (hsp : ¬sp = "")
    (hsess : env.ensure_session = Except.ok ())
    (hc : env.get_option_market_data s e sp "call" = Except.ok v)
    (hv : pyTruthy v = false ∨ ∃ es, pyIterate v = Except.ok es)
    (hb1 : md_build v s e sp "call" = Except.ok cs₁) :
    ((get_options_chain env s (some e) Option.none (some sp)).2.filter
        CallEvent.isMarketData =
      [CallEvent.getOptionMarketData s e sp "call",
       CallEvent.getOptionMarketData s e sp "put"])
    ∧ (∀ w cs₂, env.get_option_market_data s e sp "put" = Except.ok w →
        (pyTruthy w = false ∨ ∃ es, pyIterate w = Except.ok es) →
        md_build w s e sp "put" = Except.ok cs₂ →
        (md_records v).length ≤ 1 → (md_records w).length ≤ 1 →
        (∀ it ∈ md_records v, type_echo_ok "call" it) →
        (∀ it ∈ md_records w, type_echo_ok "put" it) →
        ((get_options_chain env s (some e) Option.none (some sp)).1 =
            Except.ok (cs₁ ++ cs₂)
          ∧ ((cs₁ ++ cs₂).filter (fun c => c.type = "call")).length ≤ 1
          ∧ ((cs₁ ++ cs₂).filter (fun c => c.type = "put")).length ≤ 1))
    ∧ (∀ ot, ¬ot = "" →
        (get_options_chain env s (some e) (some ot) (some sp)).2.filter
            CallEvent.isMarketData =
          [CallEvent.getOptionMarketData s e sp ot]) := by
  have htop := get_options_chain_targeted env s e sp Option.none hs he hsp hsess
  refine ⟨?_, ?_, ?_⟩
  · rw [htop]
    simp only [targeted_lookup_none]
    rw [targeted_loop_log_two env s e sp v cs₁ hc hv hb1]
    rfl
  · intro w cs₂ hp hw hb2 hlenv hlenw hechov hechow
    have hputres : (targeted_loop env s e sp ["put"]).1 = Except.ok (cs₂ ++ []) := by
      rw [targeted_loop_step env s e sp "put" [] w cs₂ hp hw hb2]
      simp [targeted_loop]
    have hres : (targeted_lookup env s e sp Option.none).1 =
        Except.ok (cs₁ ++ (cs₂ ++ [])) := by
      rw [targeted_lookup_none,
        targeted_loop_step env s e sp "call" ["put"] v cs₁ hc hv hb1, hputres]
    have hresult : (get_options_chain env s (some e) Option.none (some sp)).1 =
        Except.ok (cs₁ ++ cs₂) := by
      rw [htop]
      dsimp only
      rw [hres]
      simp
    have hlen1 : cs₁.length ≤ 1 := by
      rw [(md_build_types v s e sp "call" cs₁ hb1 hechov).1]
      exact hlenv
    have hlen2 : cs₂.length ≤ 1 := by
      rw [(md_build_types w s e sp "put" cs₂ hb2 hechow).1]
      exact hlenw
    have htypes1 := (md_build_types v s e sp "call" cs₁ hb1 hechov).2
    have htypes2 := (md_build_types w s e sp "put" cs₂ hb2 hechow).2
    refine ⟨hresult, ?_, ?_⟩
    · rw [List.filter_append]
      have hB : (cs₂.filter (fun (c : OptionContract) => c.type = "call")) = [] := by
        rw [List.filter_eq_nil_iff]
        intro c hcmem
        have ht := htypes2 c hcmem
        simp only [ht]
        decide
      rw [hB, List.append_nil]
      calc (cs₁.filter (fun (c : OptionContract) => c.type = "call")).length
          ≤ cs₁.length := (List.filter_sublist _).length_le
        _ ≤ 1 := hlen1
    · rw [List.filter_append]
      have hA : (cs₁.filter (fun (c : OptionContract) => c.type = "put")) = [] := by
        rw [List.filter_eq_nil_iff]
        intro c hcmem
        have ht := htypes1 c hcmem
        simp only [ht]
        decide
      rw [hA, List.nil_append]
      calc (cs₂.filter (fun (c : OptionContract) => c.type = "put")).length
          ≤ cs₂.length := (List.filter_sublist _).length_le
        _ ≤ 1 := hlen2
  · intro ot hot
    have hote : ot.isEmpty = false := isEmpty_false_of_ne ot hot
    rw [get_options_chain_targeted env s e sp (some ot) hs he hsp hsess]
    rw [targeted_lookup_some, hote]
    simp only [Bool.false_eq_true, if_false]
    rw [targeted_loop_log_single env s e sp ot]
    rfl

/-- C2 witness: over responses holding one typeless pricing record each,
the omitted-type path makes exactly the call-then-put queries and returns
at most one record per type, and the explicit-type path makes exactly one
query. -/
theorem claim_C2_targeted_lookup_call_counts_witness :
    (∃ cs, (get_options_chain envPlain "AAPL" (some "2026-03-20") Option.none
        (some "150.00")).1 = Except.ok cs
      ∧ (cs.filter (fun c => c.type = "call")).length ≤ 1
      ∧ (cs.filter (fun c => c.type = "put")).length ≤ 1)
    ∧ ((get_options_chain envPlain "AAPL" (some "2026-03-20") Option.none
        (some "150.00")).2.filter CallEvent.isMarketData =
      [CallEvent.getOptionMarketData "AAPL" "2026-03-20" "150.00" "call",
       CallEvent.getOptionMarketData "AAPL" "2026-03-20" "150.00" "put"])
    ∧ ((get_options_chain envPlain "AAPL" (some "2026-03-20") (some "call")
        (some "150.00")).2.filter CallEvent.isMarketData =
      [CallEvent.getOptionMarketData "AAPL" "2026-03-20" "150.00" "call"]) := by
  have hecho : ∀ (ot : String), ∀ it ∈ md_records mdPlain, type_echo_ok ot it := by
    intro ot it hit
    have h2 : it = PyVal.dict [("bid_price", PyVal.str "5.50"),
        ("ask_price", PyVal.str "5.75")] := List.mem_singleton.mp hit
    subst h2
    exact Or.inl rfl
  have h := claim_C2_targeted_lookup_call_counts envPlain "AAPL" "2026-03-20" "150.00"
    mdPlain _ (by decide) (by decide) (by decide) rfl rfl (Or.inr ⟨_, rfl⟩) rfl
  refine ⟨?_, h.1, h.2.2 "call" (by decide)⟩
  rcases h.2.1 mdPlain _ rfl (Or.inr ⟨_, rfl⟩) rfl (by decide) (by decide)
    (hecho "call") (hecho "put") with ⟨hres, h1, h2⟩
  exact ⟨_, hres, h1, h2⟩

end EvalProofs

end RobinStocksMcp
